import Mathlib

/-!
Shallow embedding of `perforce/models.py` (python-perforce).

Each definition mirrors one function, method or property of the source
module; file/line references are given next to every definition.  Python
dictionaries of string fields (`self._p4dict`) are embedded as association
lists, python exceptions as explicit error values, and the external `p4`
subprocess as either an oracle parameter or a trace of spawned command
lines.  The decorator `split_ls`, which drives a `while` loop, is embedded
with an explicit fuel parameter; `none` means the loop has not finished
within the given fuel, and divergence is expressed as `none` for every
fuel.
-/

/-- Lookup in a python dict of string keys, `d.get(k)` / `d[k]`. -/
def pydictGet (d : List (String × String)) (k : String) : Option String :=
  List.lookup k d

/-- Python `str.strip()`: drop leading and trailing whitespace. -/
def pyStrip (s : String) : String :=
  String.mk (((s.data.dropWhile Char.isWhitespace).reverse.dropWhile Char.isWhitespace).reverse)

/-- Value of a nonempty all-digit character list; `none` otherwise. -/
def pyDigits : List Char → Option Nat
  | [] => none
  | cs =>
    cs.foldl (fun acc c =>
      acc.bind (fun n => if c.isDigit then some (n * 10 + (c.toNat - 48)) else none)) (some 0)

/-- Python `int(s)` on a string: optional leading minus then digits;
`none` models the `ValueError` raised on non-numeric input. -/
def pyInt (s : String) : Option Int :=
  match s.data with
  | '-' :: cs => (pyDigits cs).map (fun n => -(n : Int))
  | cs => (pyDigits cs).map (fun n => (n : Int))

/-- Python expression `''.join((k[0].lower(), k[1:]))` used by
`Changelist.query` and `Client.__init__` to lowercase the first letter of
a field name (models.py line 493). -/
def lowerFirst (s : String) : String :=
  match s.data with
  | [] => ""
  | c :: cs => String.mk (c.toLower :: cs)

/-- Total character length of a list of path strings. -/
def sumLens (c : List String) : Nat :=
  (c.map String.length).sum

/-- Modelled from the spec: the exception classes of the `errors` module
(spec section 7), which is not under `src/`.  They are plain payload
carriers; all raising logic lives in `models.py`.  `keyError`,
`typeError`, `valueError` and `attributeError` are python builtins raised
by the dictionary/list/attribute machinery itself. -/
inductive PyErr where
  | connectionError (msg : String)
  | changelistError
  | shelveError
  | typeError
  | valueErrorNotInChangelist
  | valueErrorListRemove
  | valueError
  | attributeError
  | keyError (key : String)
deriving DecidableEq

/-- Equality of embedded call outcomes is decidable. -/
instance {ε α : Type} [DecidableEq ε] [DecidableEq α] : DecidableEq (Except ε α) := fun x y =>
  match x, y with
  | .ok a, .ok b =>
    if h : a = b then .isTrue (h ▸ rfl) else .isFalse (fun hh => h (Except.ok.inj hh))
  | .error a, .error b =>
    if h : a = b then .isTrue (h ▸ rfl) else .isFalse (fun hh => h (Except.error.inj hh))
  | .ok _, .error _ => .isFalse (fun hh => Except.noConfusion hh)
  | .error _, .ok _ => .isFalse (fun hh => Except.noConfusion hh)

/-! ## split_ls (models.py lines 30, 66-98) and Connection.ls chunking -/

/-- `CHAR_LIMIT = 8000` (models.py line 30). -/
def CHAR_LIMIT : Nat := 8000

/-- The body of the `while files:` loop inside the `split_ls` wrapper
(models.py lines 73-96), with the wrapped function `func` abstracted as
`f` and an explicit fuel bound on the number of iterations.  State
`(files, counter, index, results)` matches the python locals.  `none`
means the fuel ran out before the loop returned. -/
def splitLsLoop {α : Type} (f : List String → List α) :
    Nat → List String → Nat → Nat → List α → Option (List α)
  | 0, _, _, _, _ => none
  | fuel + 1, files, counter, index, results =>
    if files = [] then
      some results
    else if files.length ≤ index then
      some (results ++ f files)
    else
      let len := (files.getD index "").length
      if CHAR_LIMIT < len + counter then
        splitLsLoop f fuel (files.drop index) 0 0 (results ++ f (files.take index))
      else
        splitLsLoop f fuel files (counter + len) (index + 1) results

/-- The `split_ls` wrapper applied to a list argument (models.py lines
69-96): `counter = 0; index = 0; results = []` then the loop.  The
normalisation of a single non-list argument into a one-element list
(lines 70-71) is left to the caller. -/
def split_ls {α : Type} (f : List String → List α) (fuel : Nat) (files : List String) :
    Option (List α) :=
  splitLsLoop f fuel files 0 0 []

/-- The wrapped call never returns, whatever iteration budget it is
given. -/
def splitLsDiverges {α : Type} (f : List String → List α) (files : List String) : Prop :=
  ∀ fuel, split_ls f fuel files = none

/-- A single path argument one character longer than `CHAR_LIMIT`. -/
def bigPath : String := String.mk (List.replicate (CHAR_LIMIT + 1) 'a')

/-! ## Connection.run, marshalling mode (models.py lines 196-262) -/

/-- One record decoded by `marshal.load` from the child process output:
the fields `Connection.run` inspects (`code`, `severity`, `data`), plus
the remaining payload.  Real error records always carry `severity`; a
record without `code` models `record.get('code', '')` returning the
default. -/
structure P4Record where
  code : Option String
  severity : Int
  data : String
  rest : List (String × String)
deriving DecidableEq

/-- Payload of a `CommandError` (models.py lines 250 and 260): message,
the raw record when one triggered the failure, and the command line. -/
structure CommandErr where
  message : String
  record : Option P4Record
  command : String
deriving DecidableEq

/-- The test on models.py line 247:
`record.get('code', '') == 'error' and record['severity'] >= self._level`. -/
def isErrorRec (level : Int) (r : P4Record) : Bool :=
  (r.code.getD "" == "error") && decide (level ≤ r.severity)

/-- The marshalling loop of `Connection.run` (models.py lines 243-253):
load records until end of stream, raising `CommandError` with
`(record['data'], record, command)` at the first error record at or
above the severity threshold.  A raised error discards every record
accumulated so far. -/
def decodeRecords (level : Int) (command : String) :
    List P4Record → Except CommandErr (List P4Record)
  | [] => .ok []
  | r :: rest =>
    if isErrorRec level r then
      .error ⟨r.data, some r, command⟩
    else
      match decodeRecords level command rest with
      | .ok rs => .ok (r :: rs)
      | .error e => .error e

/-- `Connection.run` in marshalling mode (models.py lines 243-262) after
the child process produced record stream `stdout` and standard error
`stderr`: decode the records, then raise `CommandError(stderr, command)`
if stderr is nonempty (line 259-260), else return the records. -/
def run_marshal (level : Int) (command : String) (stdout : List P4Record)
    (stderr : String) : Except CommandErr (List P4Record) :=
  match decodeRecords level command stdout with
  | .error e => .error e
  | .ok records => if stderr ≠ "" then .error ⟨stderr, none, command⟩ else .ok records

/-! ## Connection construction (models.py lines 103-144) -/

/-- A spawned child process: the `p4 set` query issued by
`Connection.__getVariables` (line 130), or a p4 command issued through
`Connection.run` (line 231). -/
inductive Spawn where
  | p4set
  | command (args : List String)
deriving DecidableEq

/-- Environment oracle for `Connection.__getVariables`: whether the
`p4 set` subprocess exits cleanly (`subprocess.CalledProcessError`
otherwise, line 131), the variables parsed from its output, and
`os.getenv`. -/
structure P4Env where
  setOk : Bool
  p4vars : String → Option String
  osenv : String → Option String

/-- The state of a constructed `Connection` (models.py lines 103-109). -/
structure Connection where
  executable : String
  level : Int
  port : String
  user : String
  client : Option String
deriving DecidableEq

/-- Resolution order of one connection variable (models.py lines
142-144): explicit constructor argument, else `p4 set` output, else
`os.getenv`; python `or` on `None`. -/
def resolveVar (env : P4Env) (explicit : Option String) (key : String) : Option String :=
  match explicit with
  | some v => some v
  | none =>
    match env.p4vars key with
    | some v => some v
    | none => env.osenv key

/-- `Connection.__init__` (models.py lines 103-118) together with
`__getVariables` (lines 123-144).  `__getVariables` always spawns the
`p4 set` subprocess first; if that call fails it returns early and no
resolution from the environment happens (lines 131-133).  Then the port
and user checks raise `ConnectionError` (lines 113-118).  The message on
line 114 contains a backslash line continuation inside the string
literal, producing `hostnameand`. -/
def connectionConstruct (env : P4Env) (port client user : Option String)
    (executable : String) (level : Int) : Except PyErr Connection × List Spawn :=
  let spawns := [Spawn.p4set]
  let p := if env.setOk then resolveVar env port "P4PORT" else port
  let u := if env.setOk then resolveVar env user "P4USER" else user
  let c := if env.setOk then resolveVar env client "P4CLIENT" else client
  match p with
  | none =>
    (.error (.connectionError
      "Perforce host could not be found, please set P4PORT or provide the hostnameand port"),
     spawns)
  | some pv =>
    match u with
    | none =>
      (.error (.connectionError "No user could be found, please set P4USER or provide the user"),
       spawns)
    | some uv => (.ok ⟨executable, level, pv, uv, c⟩, spawns)

/-- An environment with `p4 set` succeeding but defining nothing, and an
empty process environment. -/
def envAllUnset : P4Env := ⟨true, fun _ => none, fun _ => none⟩

/-! ## Changelist and Revision (models.py lines 392-939) -/

/-- The changelist back-reference a Revision stores in `_changelist`: the
identifier (as the python object keeps it, `str(change)` with `"0"` for
the default changelist) and the raw field dictionary. -/
structure ChangelistHandle where
  change : String
  p4dict : List (String × String)
deriving DecidableEq

/-- State of a `Revision` (models.py lines 681-700): python object
identity (`oid`, since `Revision` defines no `__eq__`, list operations
compare identity), the raw `_p4dict` fields, and the `_changelist`
back-reference cache (`None` until the setter stores one). -/
structure Revision where
  oid : Nat
  p4dict : List (String × String)
  changelistCache : Option ChangelistHandle
deriving DecidableEq

/-- `Revision.depotFile` (models.py lines 888-891); records under
consideration always carry the key. -/
def Revision.depotFile (r : Revision) : String :=
  (pydictGet r.p4dict "depotFile").getD ""

/-- `Revision.isMapped` (models.py lines 893-896). -/
def Revision.isMapped (r : Revision) : Bool :=
  (pydictGet r.p4dict "isMapped").isSome

/-- `Revision.action` (models.py lines 915-918). -/
def Revision.action (r : Revision) : Option String :=
  pydictGet r.p4dict "action"

/-- `Revision.revision` (models.py lines 903-909):
`rev = self._p4dict.get('haveRev', -1)`, then `if rev == 'none': rev = 0`,
then `return int(rev)`.  When the key is absent the default `-1` is an
int already, the comparison with the string `'none'` is false, and
`int(-1)` is `-1`.  `int()` on a non-numeric string raises
`ValueError`. -/
def Revision.revision (r : Revision) : Except PyErr Int :=
  match pydictGet r.p4dict "haveRev" with
  | none => .ok (-1)
  | some v =>
    if v = "none" then .ok 0
    else
      match pyInt v with
      | some n => .ok n
      | none => .error .valueError

/-- State of a `Changelist` (models.py lines 397-410) whose membership
has been loaded: `_change` (0 is the default changelist), `_p4dict`
header fields, `_files`, `_dirty`, `_reverted`.  The lazy
`if self._files is None: self.query()` re-load is modelled by taking the
membership as already present. -/
structure Changelist where
  change : Nat
  p4dict : List (String × String)
  files : List Revision
  dirty : Bool
  reverted : Bool
deriving DecidableEq

/-- `Changelist.__contains__` (models.py lines 431-440): membership is
keyed by depot file path. -/
def Changelist.containsRev (cl : Changelist) (r : Revision) : Bool :=
  r.depotFile ∈ cl.files.map Revision.depotFile

/-- The command `Revision.edit` issues (models.py lines 728-738):
`reopen` instead of `edit` when the file is already open for add or
edit, `-c` only for a nonzero changelist. -/
def Revision.editCmd (r : Revision) (change : Nat) : List String :=
  let command := if r.action = some "add" ∨ r.action = some "edit" then "reopen" else "edit"
  if change ≠ 0 then [command, "-c", toString change, r.depotFile]
  else [command, r.depotFile]

/-- `Changelist.revert` (models.py lines 551-576): fail with
`ChangelistError` if already reverted; otherwise issue one `revert`
command naming every member (`default` for changelist 0, `-a` when
`unchanged_only`, no command at all when the membership is empty), then
clear the membership and set the reverted mark.  The successful external
run is returned as the list of issued command lines. -/
def Changelist.revert (cl : Changelist) (unchanged_only : Bool) :
    Except PyErr (Changelist × List (List String)) :=
  if cl.reverted then .error .changelistError
  else
    let change := if cl.change = 0 then "default" else toString cl.change
    let cmd := ["revert", "-c", change] ++ (if unchanged_only then ["-a"] else [])
    let files := cl.files.map Revision.depotFile
    let cmds := if files = [] then [] else [cmd ++ files]
    .ok ({ cl with files := [], reverted := true }, cmds)

/-- A python value passed where a `Revision` is expected. -/
inductive P4Arg where
  | rev (r : Revision)
  | strv (s : String)
deriving DecidableEq

/-- Python `list.remove`: drop the first element equal to `r` (identity
comparison, since `Revision` defines no `__eq__`); `none` models the
`ValueError` raised when no element matches. -/
def listRemoveFirst : List Revision → Revision → Option (List Revision)
  | [], _ => none
  | x :: xs, r => if x = r then some xs else (listRemoveFirst xs r).map (fun ys => x :: ys)

/-- `Changelist.remove` (models.py lines 533-549): `TypeError` for a
non-Revision argument; `ValueError` when the depot path is not a member
(`__contains__`); otherwise `self._files.remove(rev)`, and then, unless
`permanent`, `rev.changelist = self._connection.default` — but the
`Connection` class defines no attribute `default` (models.py lines
101-367), so that line raises `AttributeError` after the membership has
already been mutated.  The result is the object state after the call
plus the error, if any, that the call raises. -/
def Changelist.remove (cl : Changelist) (arg : P4Arg) (permanent : Bool) :
    Changelist × Option PyErr :=
  match arg with
  | .strv _ => (cl, some .typeError)
  | .rev r =>
    if cl.containsRev r then
      match listRemoveFirst cl.files r with
      | some files =>
        if permanent then ({ cl with files := files }, none)
        else ({ cl with files := files }, some .attributeError)
      | none => (cl, some .valueErrorListRemove)
    else (cl, some .valueErrorNotInChangelist)

/-- `Changelist.append` for a `Revision` argument (models.py lines
510-531, the branch after the `isinstance` test; a bare path argument is
first resolved through `Connection.ls`/`Connection.add`, which needs the
server and is not modelled here).  If the depot path is already a member
nothing happens at all; otherwise the file is checked out when mapped
(`rev.edit(self)`, whose post-edit server re-query is external), the
revision is appended, the setter `rev.changelist = self` stores the
back-reference on the revision, and the dirty mark is set.  Issued
command lines are returned alongside the new state. -/
def Changelist.append (cl : Changelist) (r : Revision) :
    Changelist × List (List String) :=
  if cl.containsRev r then (cl, [])
  else
    let cmds := if r.isMapped then [r.editCmd cl.change] else []
    let stored := { r with changelistCache := some ⟨toString cl.change, cl.p4dict⟩ }
    ({ cl with files := cl.files ++ [stored], dirty := true }, cmds)

/-! ## Revision.changelist resolution and shelve (models.py lines 656-671, 814-831, 920-939) -/

/-- Server oracle for resolving a changelist from a Revision:
`openedDefault` is the record list `p4 opened -c default` returns, and
`changeForm` the first record of `p4 change -o <n>`. -/
structure ResolveEnv where
  openedDefault : List (List (String × String))
  changeForm : List (String × String)

/-- The `Revision.changelist` getter (models.py lines 920-929).  With a
cached `_changelist` the cache is returned and nothing is spawned.
Otherwise, when `_p4dict['change']` is `'default'`, `Default(connection)`
is constructed (models.py lines 656-671): its base `Changelist.__init__`
leaves `_files = None` and `_p4dict = {}` (the `query` guard
`if self._change:` is false for `None`, and stays false once `_change`
becomes 0), it spawns `p4 opened -c default`, and then
`self._files.append(...)` on `None` raises `AttributeError` as soon as
that query returns any record; with no record it spawns `p4 change -o`
and finishes with `_change = 0` and `_p4dict` still empty.  For a
numbered changelist, `Changelist(str(change), connection)` spawns
`p4 change -o <change>` and keeps the first record with field names
lowercased at the first letter.  No branch stores anything back into
`_changelist`: the getter never caches.  The result carries the resolved
handle, the revision object after the call, and the spawned command
lines. -/
def Revision.changelist (r : Revision) (env : ResolveEnv) :
    Except PyErr (ChangelistHandle × Revision) × List Spawn :=
  match r.changelistCache with
  | some cl => (.ok (cl, r), [])
  | none =>
    match pydictGet r.p4dict "change" with
    | none => (.error (.keyError "change"), [])
    | some chg =>
      if chg = "default" then
        if env.openedDefault.isEmpty then
          (.ok (⟨"0", []⟩, r),
           [Spawn.command ["opened", "-c", "default"], Spawn.command ["change", "-o"]])
        else
          (.error .attributeError, [Spawn.command ["opened", "-c", "default"]])
      else
        (.ok (⟨chg, env.changeForm.map (fun kv => (lowerFirst kv.1, kv.2))⟩, r),
         [Spawn.command ["change", "-o", chg]])

/-- The `Changelist.description` property (models.py lines 613-616):
`self._p4dict['description'].strip()`; a missing key raises `KeyError`. -/
def ChangelistHandle.description (cl : ChangelistHandle) : Except PyErr String :=
  match pydictGet cl.p4dict "description" with
  | some d => .ok (pyStrip d)
  | none => .error (.keyError "description")

/-- `Revision.shelve` (models.py lines 814-831): with no explicit
changelist argument, evaluate
`self.changelist.description == 'default'` and raise `ShelveError` when
it holds; any error raised while resolving the changelist or reading its
description propagates instead.  Otherwise the `shelve` command line is
built (`-c` only when a changelist was passed) and run; the successful
command line is returned. -/
def Revision.shelve (r : Revision) (changelist : Option String) (env : ResolveEnv) :
    Except PyErr (List String) :=
  match changelist with
  | some chg => .ok ["shelve", "-c", chg, r.depotFile]
  | none =>
    match (Revision.changelist r env).1 with
    | .error e => .error e
    | .ok (cl, _) =>
      match cl.description with
      | .error e => .error e
      | .ok d => if d = "default" then .error .shelveError else .ok ["shelve", r.depotFile]

/-! ## Concrete instances used by witnesses and counterexamples -/

/-- A revision for `//depot/a.txt`, member of changelist 4. -/
def revA : Revision := ⟨10, [("depotFile", "//depot/a.txt"), ("change", "4")], none⟩

/-- A second revision, member of nothing. -/
def revB : Revision := ⟨11, [("depotFile", "//depot/b.txt")], none⟩

/-- Changelist 4 containing `revA`. -/
def clWithA : Changelist := ⟨4, [("description", "stuff")], [revA], false, false⟩

/-- Changelist 4 with empty membership. -/
def clEmpty : Changelist := ⟨4, [("description", "stuff")], [], false, false⟩

/-- A revision whose record lacks `haveRev`. -/
def revNoHave : Revision := ⟨12, [("depotFile", "//depot/a.txt")], none⟩

/-- A revision whose `haveRev` field is the string `none`. -/
def revHaveNone : Revision := ⟨13, [("depotFile", "//depot/a.txt"), ("haveRev", "none")], none⟩

/-- A revision whose `haveRev` field is the numeric string `5`. -/
def revHave5 : Revision := ⟨14, [("depotFile", "//depot/a.txt"), ("haveRev", "5")], none⟩

/-- A revision sitting in the default changelist, back-reference not yet
resolved. -/
def revDefault : Revision := ⟨15, [("depotFile", "//depot/a.txt"), ("change", "default")], none⟩

/-- A revision in numbered changelist 5, back-reference not yet
resolved. -/
def revNumbered : Revision := ⟨16, [("depotFile", "//depot/a.txt"), ("change", "5")], none⟩

/-- A cached back-reference handle. -/
def handle7 : ChangelistHandle := ⟨"7", [("change", "7"), ("description", "cached")]⟩

/-- A revision whose `_changelist` cache holds `handle7`. -/
def revCached : Revision := ⟨17, [("depotFile", "//depot/a.txt"), ("change", "7")], some handle7⟩

/-- Server oracle: one file open in the default changelist, and the form
of changelist 5. -/
def envOpened : ResolveEnv :=
  ⟨[[("depotFile", "//depot/a.txt")]], [("Change", "5"), ("Description", "stuff")]⟩

/-- Server oracle: nothing open in the default changelist. -/
def envNoOpened : ResolveEnv := ⟨[], [("Change", "5"), ("Description", "stuff")]⟩

/-! ## Theorems -/

/-- The record decoder fails at the first error record at or above the
threshold, carrying its payload; with no such record every record is
returned in order. -/
theorem decodeRecords_spec (level : Int) (command : String) (stream : List P4Record) :
    match stream.find? (isErrorRec level) with
    | some r => decodeRecords level command stream = .error ⟨r.data, some r, command⟩
    | none => decodeRecords level command stream = .ok stream := by
  induction stream with
  | nil => simp [decodeRecords]
  | cons r rest ih =>
    cases h : isErrorRec level r with
    | true => simp [decodeRecords, h, List.find?_cons, h]
    | false =>
      cases hf : rest.find? (isErrorRec level) with
      | none =>
        simp only [hf] at ih
        simp [decodeRecords, h, List.find?_cons, hf, ih]
      | some r2 =>
        simp only [hf] at ih
        simp [decodeRecords, h, List.find?_cons, hf, ih]

/-- C2: `Connection.run` in marshalling mode fails with `CommandError`
exactly when the decoded output stream contains a record whose `code` is
`error` and whose severity is at or above the threshold; the failure
carries the data payload, the raw record and the command line, and no
earlier record is returned (all-or-nothing).  Below-threshold error
records pass through as ordinary data. -/
theorem run_marshal_error_records (level : Int) (command : String) (stream : List P4Record) :
    (match stream.find? (isErrorRec level) with
     | some r => run_marshal level command stream "" = .error ⟨r.data, some r, command⟩
     | none => run_marshal level command stream "" = .ok stream) ∧
    ((∃ r ∈ stream, isErrorRec level r = true) ↔
      ∃ e, run_marshal level command stream "" = .error e) := by
  have h := decodeRecords_spec level command stream
  cases hf : stream.find? (isErrorRec level) with
  | none =>
    simp only [hf] at h
    have hnone := List.find?_eq_none.mp hf
    constructor
    · simp [run_marshal, h]
    · constructor
      · rintro ⟨r, hr, hder⟩
        exact absurd hder (by simpa using hnone r hr)
      · rintro ⟨e, he⟩
        rw [show run_marshal level command stream "" = .ok stream by simp [run_marshal, h]] at he
        cases he
  | some r =>
    simp only [hf] at h
    have hmem := List.mem_of_find?_eq_some hf
    have hpred := List.find?_some hf
    constructor
    · simp [run_marshal, h]
    · exact ⟨fun _ => ⟨⟨r.data, some r, command⟩, by simp [run_marshal, h]⟩,
        fun _ => ⟨r, hmem, hpred⟩⟩

/-- C4: a changelist that has not been reverted yet reverts successfully,
leaving the membership empty and the reverted mark set, and a second
revert fails with `ChangelistError`. -/
theorem changelist_revert_once_then_fails (cl : Changelist) (u1 u2 : Bool)
    (h : cl.reverted = false) :
    ∃ cmds,
      Changelist.revert cl u1 = .ok ({ cl with files := [], reverted := true }, cmds) ∧
      Changelist.revert { cl with files := [], reverted := true } u2 =
        .error .changelistError := by
  refine ⟨if cl.files.map Revision.depotFile = [] then []
          else [(["revert", "-c", if cl.change = 0 then "default" else toString cl.change] ++
                 (if u1 then ["-a"] else [])) ++ cl.files.map Revision.depotFile], ?_, ?_⟩
  · simp [Changelist.revert, h]
  · simp [Changelist.revert]

/-- C4 witness at a concrete changelist. -/
theorem changelist_revert_once_then_fails_witness :
    ∃ cmds,
      Changelist.revert clWithA false = .ok ({ clWithA with files := [], reverted := true }, cmds) ∧
      Changelist.revert { clWithA with files := [], reverted := true } false =
        .error .changelistError :=
  changelist_revert_once_then_fails clWithA false false rfl

/-- C5: `Changelist.remove` evaluated on concrete inputs.  A non-Revision
argument fails with `TypeError` and a non-member with `ValueError`, as
the claim states; but removing a member with `permanent = False`
detaches it and then raises `AttributeError`, because
`self._connection.default` names an attribute the `Connection` class
does not define — the documented reassignment to the default changelist
never happens. -/
theorem changelist_remove_nonpermanent_attribute_error :
    Changelist.remove clWithA (.rev revA) false =
      ({ clWithA with files := [] }, some .attributeError) ∧
    Changelist.remove clWithA (.rev revA) true = ({ clWithA with files := [] }, none) ∧
    Changelist.remove clWithA (.strv "//depot/a.txt") false = (clWithA, some .typeError) ∧
    Changelist.remove clEmpty (.rev revA) false =
      (clEmpty, some .valueErrorNotInChangelist) := by
  decide

/-- C6: appending a revision whose depot path is already a member is a
no-op: state unchanged (membership and dirty mark included) and no
command issued. -/
theorem changelist_append_member_noop (cl : Changelist) (r : Revision)
    (h : cl.containsRev r = true) :
    Changelist.append cl r = (cl, []) := by
  simp [Changelist.append, h]

/-- A revision distinct from `revA` (fresh identity) with the same depot
path. -/
theorem changelist_append_member_noop_witness :
    Changelist.append clWithA ⟨18, [("depotFile", "//depot/a.txt")], none⟩ = (clWithA, []) :=
  changelist_append_member_noop clWithA ⟨18, [("depotFile", "//depot/a.txt")], none⟩ (by decide)

/-- C7 counterexample: a record without `haveRev` yields revision `-1`,
not `0` as claimed. -/
theorem revision_absent_haveRev_is_minus_one :
    Revision.revision revNoHave = .ok (-1) ∧ Revision.revision revNoHave ≠ .ok 0 := by
  decide

/-- C7 amended: the accessor maps the raw value `none` to 0, an absent
field to -1, and any numeric string to its integer value. -/
theorem revision_accessor_mapping (r : Revision) :
    (pydictGet r.p4dict "haveRev" = some "none" → Revision.revision r = .ok 0) ∧
    (pydictGet r.p4dict "haveRev" = none → Revision.revision r = .ok (-1)) ∧
    (∀ s n, pydictGet r.p4dict "haveRev" = some s → s ≠ "none" → pyInt s = some n →
      Revision.revision r = .ok n) := by
  refine ⟨fun h => ?_, fun h => ?_, fun s n h1 h2 h3 => ?_⟩
  · simp [Revision.revision, h]
  · simp [Revision.revision, h]
  · simp [Revision.revision, h1, h2, h3]

/-- C7 witness at concrete revisions. -/
theorem revision_accessor_mapping_witness :
    Revision.revision revHaveNone = .ok 0 ∧ Revision.revision revHave5 = .ok 5 :=
  ⟨(revision_accessor_mapping revHaveNone).1 rfl,
   (revision_accessor_mapping revHave5).2.2 "5" 5 rfl (by decide) (by decide)⟩

/-- C8: shelving a revision that sits in the default changelist, with no
explicit changelist argument, does not raise `ShelveError`: resolving
`self.changelist` builds a `Default` object, which raises
`AttributeError` as soon as `p4 opened -c default` returns any record
(the file itself is open there), and even with no opened record the
`description` property raises `KeyError` on the empty field
dictionary. -/
theorem shelve_default_changelist_crashes :
    Revision.shelve revDefault none envOpened = .error .attributeError ∧
    Revision.shelve revDefault none envNoOpened = .error (.keyError "description") ∧
    Revision.shelve revDefault none envOpened ≠ .error .shelveError ∧
    Revision.shelve revDefault none envNoOpened ≠ .error .shelveError := by
  decide

/-- C9 counterexample: resolving the changelist of a revision with an
empty cache performs a server lookup and returns the revision object
unchanged — the cache is still empty afterwards, so a second call
repeats the lookup instead of reusing a stored object. -/
theorem changelist_getter_does_not_cache :
    Revision.changelist revNumbered envNoOpened =
      (.ok (⟨"5", [("change", "5"), ("description", "stuff")]⟩, revNumbered),
       [Spawn.command ["change", "-o", "5"]]) ∧
    revNumbered.changelistCache = none := by
  decide

/-- C9 amended: the getter returns a stored back-reference without any
lookup; with no stored back-reference it resolves a fresh changelist
with a server lookup on every call and never writes the cache. -/
theorem changelist_getter_cached_or_fresh (r : Revision) (env : ResolveEnv) :
    (∀ cl, r.changelistCache = some cl → Revision.changelist r env = (.ok (cl, r), [])) ∧
    (∀ chg, r.changelistCache = none → pydictGet r.p4dict "change" = some chg →
      chg ≠ "default" →
      Revision.changelist r env =
        (.ok (⟨chg, env.changeForm.map (fun kv => (lowerFirst kv.1, kv.2))⟩, r),
         [Spawn.command ["change", "-o", chg]])) := by
  constructor
  · intro cl h
    simp [Revision.changelist, h]
  · intro chg h1 h2 h3
    simp [Revision.changelist, h1, h2, h3]

/-- C9 witness: a cached back-reference is returned as-is with no
lookup. -/
theorem changelist_getter_cached_or_fresh_witness :
    Revision.changelist revCached envNoOpened = (.ok (handle7, revCached), []) :=
  (changelist_getter_cached_or_fresh revCached envNoOpened).1 handle7 rfl

/-- C3 counterexample: with nothing resolvable, construction does fail,
but only after the `p4 set` environment query has been spawned — the
spawn trace at the failure is not empty. -/
theorem connection_construct_spawns_env_query :
    (connectionConstruct envAllUnset none none none "p4" 3).1 =
      .error (.connectionError
        "Perforce host could not be found, please set P4PORT or provide the hostnameand port") ∧
    (connectionConstruct envAllUnset none none none "p4" 3).2 ≠ [] := by
  constructor
  · rfl
  · decide

/-- C3 amended: when neither the explicit arguments nor the environment
yield a port and a user, construction fails with `ConnectionError`, and
the only process spawned before the failure is the single `p4 set`
environment-resolution query — no p4 command process is spawned. -/
theorem connection_construct_unresolvable_fails (env : P4Env)
    (port client user : Option String) (executable : String) (level : Int)
    (hp : port = none) (hp1 : env.p4vars "P4PORT" = none) (hp2 : env.osenv "P4PORT" = none)
    (hu : user = none) (hu1 : env.p4vars "P4USER" = none) (hu2 : env.osenv "P4USER" = none) :
    connectionConstruct env port client user executable level =
      (.error (.connectionError
        "Perforce host could not be found, please set P4PORT or provide the hostnameand port"),
       [Spawn.p4set]) := by
  cases hs : env.setOk <;>
    simp [connectionConstruct, resolveVar, hp, hp1, hp2, hu, hu1, hu2, hs]

/-- C3 witness at the all-unset environment. -/
theorem connection_construct_unresolvable_fails_witness :
    connectionConstruct envAllUnset none none none "p4" 3 =
      (.error (.connectionError
        "Perforce host could not be found, please set P4PORT or provide the hostnameand port"),
       [Spawn.p4set]) :=
  connection_construct_unresolvable_fails envAllUnset none none none "p4" 3
    rfl rfl rfl rfl rfl rfl

/-! ## split_ls theorems -/

theorem sumLens_append (a b : List String) : sumLens (a ++ b) = sumLens a + sumLens b := by
  simp [sumLens]

/-- A function distributing over append sends the empty list to the
empty list. -/
theorem splitHom_nil {α : Type} (f : List String → List α)
    (hHom : ∀ a b, f (a ++ b) = f a ++ f b) : f [] = [] := by
  have h0 := hHom [] []
  simp only [List.append_nil] at h0
  have hl := congrArg List.length h0
  simp only [List.length_append] at hl
  exact List.eq_nil_of_length_eq_zero (by omega)

/-- A function distributing over append turns per-chunk application into
application to the concatenation. -/
theorem splitHom_flatten {α : Type} (f : List String → List α)
    (hHom : ∀ a b, f (a ++ b) = f a ++ f b) :
    ∀ cs : List (List String), (cs.map f).flatten = f cs.flatten := by
  intro cs
  induction cs with
  | nil => simp [splitHom_nil f hHom]
  | cons c cs ih => simp [ih, hHom]

/-- `CHAR_LIMIT` is exceeded by `bigPath`. -/
theorem bigPath_big : CHAR_LIMIT < bigPath.length := by
  have h : bigPath.length = (List.replicate (CHAR_LIMIT + 1) 'a').length := rfl
  rw [h, List.length_replicate]
  omega

/-- With the running counter at 0 and an oversized path at the front,
each loop step flushes the empty prefix and leaves the file list, the
counter and the index unchanged: the loop returns for no fuel. -/
theorem splitLsLoop_stuck {α : Type} (f : List String → List α) (p : String)
    (rest : List String) (hp : CHAR_LIMIT < p.length) :
    ∀ fuel results, splitLsLoop f fuel (p :: rest) 0 0 results = none := by
  intro fuel
  induction fuel with
  | zero => intro results; rfl
  | succ n ih =>
    intro results
    have hne : (p :: rest : List String) ≠ [] := by simp
    have hlen : ¬((p :: rest : List String).length ≤ 0) := by simp
    simp only [splitLsLoop]
    rw [if_neg hne, if_neg hlen]
    simp only [List.getD_cons_zero, Nat.add_zero, List.drop_zero, List.take_zero]
    rw [if_pos hp]
    exact ih (results ++ f [])

/-- Invariant proof for the `split_ls` loop: starting from a state whose
counter is the length of the scanned prefix and within the limit, and
with every remaining path within the limit, the loop finishes (for
enough fuel) having partitioned the remaining files into consecutive
chunks, each within the limit, applying `f` once per chunk and
appending the chunk results, in order, to the accumulator. -/
theorem splitLsLoop_chunks {α : Type} (f : List String → List α) :
    ∀ (n : Nat) (files : List String) (counter index : Nat) (results : List α),
      2 * files.length - index ≤ n →
      (∀ p ∈ files, p.length ≤ CHAR_LIMIT) →
      index ≤ files.length →
      counter = sumLens (files.take index) →
      counter ≤ CHAR_LIMIT →
      ∃ (fuel : Nat) (chunks : List (List String)),
        chunks.flatten = files ∧
        (∀ c ∈ chunks, sumLens c ≤ CHAR_LIMIT) ∧
        splitLsLoop f fuel files counter index results =
          some (results ++ (chunks.map f).flatten) := by
  intro n
  induction n with
  | zero =>
    intro files counter index results hn hlen hidx hcnt hbound
    have hL : files.length = 0 := by omega
    have hfe : files = [] := List.eq_nil_of_length_eq_zero hL
    subst hfe
    exact ⟨1, [], by simp, by simp, by simp [splitLsLoop]⟩
  | succ n ih =>
    intro files counter index results hn hlen hidx hcnt hbound
    by_cases hfe : files = []
    · subst hfe
      exact ⟨1, [], by simp, by simp, by simp [splitLsLoop]⟩
    · by_cases hfull : files.length ≤ index
      · have htake : files.take index = files := List.take_of_length_le hfull
        rw [htake] at hcnt
        refine ⟨1, [files], by simp, ?_, ?_⟩
        · intro c hc
          rw [List.mem_singleton] at hc
          subst hc
          rw [hcnt] at hbound
          exact hbound
        · simp [splitLsLoop, hfe, hfull]
      · push_neg at hfull
        have hgd : files[index]? = some (files.getD index "") := by
          simp [List.getD_eq_getElem?_getD, List.getElem?_eq_getElem hfull]
        have hmem : files.getD index "" ∈ files := List.getElem?_mem hgd
        by_cases hflush : CHAR_LIMIT < (files.getD index "").length + counter
        · have hipos : 0 < index := by
            rcases Nat.eq_zero_or_pos index with h0 | h0
            · exfalso
              subst h0
              simp [sumLens] at hcnt
              subst hcnt
              exact absurd hflush (by simpa using Nat.not_lt.mpr (hlen _ hmem))
            · exact h0
          have hlen2 : ∀ p ∈ files.drop index, p.length ≤ CHAR_LIMIT :=
            fun p hp => hlen p (List.drop_subset index files hp)
          have hmeas : 2 * (files.drop index).length - 0 ≤ n := by
            rw [List.length_drop]
            omega
          obtain ⟨fuel0, chunks0, hjoin, hbnds, hloop⟩ :=
            ih (files.drop index) 0 0 (results ++ f (files.take index)) hmeas hlen2
              (Nat.zero_le _) (by simp [sumLens]) (Nat.zero_le _)
          refine ⟨fuel0 + 1, files.take index :: chunks0, ?_, ?_, ?_⟩
          · simp [hjoin]
          · intro c hc
            rcases List.mem_cons.mp hc with hc | hc
            · subst hc
              rw [hcnt] at hbound
              exact hbound
            · exact hbnds c hc
          · simp only [splitLsLoop]
            rw [if_neg hfe, if_neg (by omega : ¬ files.length ≤ index)]
            rw [if_pos hflush, hloop]
            simp [List.append_assoc]
        · push_neg at hflush
          have htakes : files.take (index + 1) = files.take index ++ [files.getD index ""] := by
            rw [List.take_succ, hgd]
            rfl
          have hcnt2 : counter + (files.getD index "").length =
              sumLens (files.take (index + 1)) := by
            rw [htakes, sumLens_append, ← hcnt]
            simp [sumLens]
          have hmeas : 2 * files.length - (index + 1) ≤ n := by omega
          have hbound2 : counter + (files.getD index "").length ≤ CHAR_LIMIT := by omega
          obtain ⟨fuel0, chunks0, hjoin, hbnds, hloop⟩ :=
            ih files (counter + (files.getD index "").length) (index + 1) results hmeas hlen
              (by omega) hcnt2 hbound2
          refine ⟨fuel0 + 1, chunks0, hjoin, hbnds, ?_⟩
          simp only [splitLsLoop]
          rw [if_neg hfe, if_neg (by omega : ¬ files.length ≤ index)]
          rw [if_neg (by omega : ¬ CHAR_LIMIT < (files.getD index "").length + counter)]
          exact hloop

/-- C1 amended: for a list of paths each within the 8000-character limit
and a body distributing over list concatenation (the unchunked stub),
the chunking wrapper terminates with the same result list, in input
order, as a single unchunked invocation of the body on the whole list;
the input is split into consecutive chunks whose cumulative character
length never exceeds 8000 and the body runs once per chunk, results
concatenated in input order. -/
theorem split_ls_chunked_matches_unchunked {α : Type} (f : List String → List α)
    (files : List String)
    (hHom : ∀ a b, f (a ++ b) = f a ++ f b)
    (hLen : ∀ p ∈ files, p.length ≤ CHAR_LIMIT) :
    ∃ (fuel : Nat) (chunks : List (List String)),
      chunks.flatten = files ∧
      (∀ c ∈ chunks, sumLens c ≤ CHAR_LIMIT) ∧
      split_ls f fuel files = some ((chunks.map f).flatten) ∧
      split_ls f fuel files = some (f files) := by
  obtain ⟨fuel, chunks, hjoin, hbnds, hloop⟩ :=
    splitLsLoop_chunks f (2 * files.length) files 0 0 [] (by omega) hLen
      (Nat.zero_le _) (by simp [sumLens]) (Nat.zero_le _)
  refine ⟨fuel, chunks, hjoin, hbnds, ?_, ?_⟩
  · simpa [split_ls] using hloop
  · rw [split_ls, hloop, List.nil_append, splitHom_flatten f hHom, hjoin]

/-- C1 witness on a concrete two-path list with the identity body. -/
theorem split_ls_chunked_matches_unchunked_witness :
    ∃ (fuel : Nat) (chunks : List (List String)),
      chunks.flatten = ["//depot/a.txt", "//depot/b.txt"] ∧
      (∀ c ∈ chunks, sumLens c ≤ CHAR_LIMIT) ∧
      split_ls (fun l => l) fuel ["//depot/a.txt", "//depot/b.txt"] =
        some ((chunks.map (fun l => l)).flatten) ∧
      split_ls (fun l => l) fuel ["//depot/a.txt", "//depot/b.txt"] =
        some ["//depot/a.txt", "//depot/b.txt"] :=
  split_ls_chunked_matches_unchunked (fun l => l) ["//depot/a.txt", "//depot/b.txt"]
    (fun _ _ => rfl) (by decide)

/-- C1 counterexample: on a list holding one path longer than 8000
characters the wrapper never returns at all — with the counter at 0 it
flushes the empty prefix forever — so it does not produce the result of
an unchunked invocation on that list. -/
theorem split_ls_oversized_path_diverges :
    splitLsDiverges (fun l : List String => l) [bigPath] := by
  intro fuel
  exact splitLsLoop_stuck (fun l => l) bigPath [] bigPath_big fuel []

/-- C10: whenever the path at the front of the remaining file list is
longer than 8000 characters and the running counter is 0, the wrapper
loop returns for no fuel bound whatsoever — each step flushes an empty
chunk without consuming the oversized path — and in particular the whole
wrapped call diverges on such a list. -/
theorem split_ls_oversized_next_path_loops {α : Type} (f : List String → List α)
    (p : String) (rest : List String) (results : List α)
    (hp : CHAR_LIMIT < p.length) (fuel : Nat) :
    splitLsLoop f fuel (p :: rest) 0 0 results = none ∧
    split_ls f fuel (p :: rest) = none :=
  ⟨splitLsLoop_stuck f p rest hp fuel results,
   splitLsLoop_stuck f p rest hp fuel []⟩

/-- C10 witness at the concrete oversized path. -/
theorem split_ls_oversized_next_path_loops_witness :
    splitLsLoop (fun l : List String => l) 9 [bigPath] 0 0 [] = none ∧
    split_ls (fun l : List String => l) 9 [bigPath] = none :=
  split_ls_oversized_next_path_loops (fun l => l) bigPath [] [] bigPath_big 9
